import Mathlib

/-!
Shallow embedding of the ZaJiSchedule CPU governor core, with proofs about
its quota solver, sliding windows, cgroup actuator, control-loop hysteresis
and reservation store.  Python floats are modelled as rationals (exact
arithmetic); timestamps are rationals measured in seconds.
-/

namespace ZaJi

/-! ### Settings (src/config/settings.py)

Only the fields the scheduler's quota computation reads, with the defaults
from `Settings`. -/

structure Settings where
  limitsPeakCriticalThreshold : ℚ
  limitsAbsoluteMinCpu : ℚ
  limitsAbsoluteMaxCpu : ℚ
  schedulerQuotaHighCpuLimit : ℚ
  schedulerQuotaMediumCpuLimit : ℚ
  schedulerQuotaLowCpuLimit : ℚ
  schedulerEmergencyThreshold : ℚ
  schedulerEmergencyCpuLimit : ℚ
deriving Repr

def defaultSettings : Settings :=
  { limitsPeakCriticalThreshold := 60
    limitsAbsoluteMinCpu := 5
    limitsAbsoluteMaxCpu := 95
    schedulerQuotaHighCpuLimit := 85
    schedulerQuotaMediumCpuLimit := 60
    schedulerQuotaLowCpuLimit := 35
    schedulerEmergencyThreshold := 1
    schedulerEmergencyCpuLimit := 20 }

/-! ### Quota solver (src/core/scheduler.py, `CPUScheduler._calculate_cpu_limit`)

The fields of the `quota_info` dict that `_calculate_cpu_limit` reads. -/

structure QuotaInfo where
  avgQuotaRemaining : ℚ
  peakQuotaRemaining : ℚ
  reservationQuota : Option ℚ
deriving Repr

/-- Line-for-line embedding of `CPUScheduler._calculate_cpu_limit`:
if a reservation is active, return `min(reservation_quota, absolute_max)`
immediately; otherwise pick the tier limit from `avg_quota_remaining`
(thresholds 20, 5 and `scheduler_emergency_threshold` are strict `>`),
lower it to the emergency limit when `peak_quota_remaining <
limits_peak_critical_threshold` (strict `<`), and finally clamp with
`max(absolute_min, min(target, absolute_max))`. -/
def calculateCpuLimit (st : Settings) (q : QuotaInfo) : ℚ :=
  match q.reservationQuota with
  | some rq => min rq st.limitsAbsoluteMaxCpu
  | none =>
    let target : ℚ :=
      if 20 < q.avgQuotaRemaining then st.schedulerQuotaHighCpuLimit
      else if 5 < q.avgQuotaRemaining then st.schedulerQuotaMediumCpuLimit
      else if st.schedulerEmergencyThreshold < q.avgQuotaRemaining then
        st.schedulerQuotaLowCpuLimit
      else st.schedulerEmergencyCpuLimit
    let target : ℚ :=
      if q.peakQuotaRemaining < st.limitsPeakCriticalThreshold then
        min target st.schedulerEmergencyCpuLimit
      else target
    max st.limitsAbsoluteMinCpu (min target st.limitsAbsoluteMaxCpu)

/-- Quota state used in the counterexamples: a reservation of 2% is active. -/
def qReservationTiny : QuotaInfo :=
  { avgQuotaRemaining := 30, peakQuotaRemaining := 600, reservationQuota := some 2 }

/-- Quota state: reservation of 80% active while the average quota is exhausted. -/
def qReservationBig : QuotaInfo :=
  { avgQuotaRemaining := 0, peakQuotaRemaining := 600, reservationQuota := some 80 }

/-- The same state without the reservation. -/
def qNoReservationExhausted : QuotaInfo :=
  { avgQuotaRemaining := 0, peakQuotaRemaining := 600, reservationQuota := none }

/-- Quota state: reservation of 80% active while the peak budget is exhausted. -/
def qReservationPeakGone : QuotaInfo :=
  { avgQuotaRemaining := 30, peakQuotaRemaining := 0, reservationQuota := some 80 }

/-- Quota state: no reservation, peak budget exhausted. -/
def qNoReservationPeakGone : QuotaInfo :=
  { avgQuotaRemaining := 30, peakQuotaRemaining := 0, reservationQuota := none }

/-- C1 counterexample: with an active reservation of 2% and default settings
(`min_limit = 5`), `_calculate_cpu_limit` returns 2, which lies below
`min_limit`, so the output is not always within `[min_limit, max_limit]`. -/
theorem c1_clamp_counterexample :
    calculateCpuLimit defaultSettings qReservationTiny = 2 ∧
    calculateCpuLimit defaultSettings qReservationTiny <
      defaultSettings.limitsAbsoluteMinCpu := by
  constructor <;> decide

/-- C1 (amended): the solver's output never exceeds `max_limit`, and on the
no-reservation path the final step applies `max(min_limit, min(max_limit,
result))`, so the output also stays at or above `min_limit`; with an active
reservation the output is `min(quota, max_limit)` and may fall below
`min_limit`. -/
theorem c1_clamp_amended (st : Settings) (q : QuotaInfo)
    (h : st.limitsAbsoluteMinCpu ≤ st.limitsAbsoluteMaxCpu) :
    calculateCpuLimit st q ≤ st.limitsAbsoluteMaxCpu ∧
    (q.reservationQuota = none →
      st.limitsAbsoluteMinCpu ≤ calculateCpuLimit st q) := by
  refine ⟨?_, ?_⟩
  · cases hq : q.reservationQuota with
    | none =>
      simp only [calculateCpuLimit, hq]
      exact max_le h (min_le_right _ _)
    | some rq =>
      simp only [calculateCpuLimit, hq]
      exact min_le_right _ _
  · intro hn
    simp only [calculateCpuLimit, hn]
    exact le_max_left _ _

theorem c1_clamp_amended_witness :
    calculateCpuLimit defaultSettings qNoReservationExhausted ≤
      defaultSettings.limitsAbsoluteMaxCpu ∧
    (qNoReservationExhausted.reservationQuota = none →
      defaultSettings.limitsAbsoluteMinCpu ≤
        calculateCpuLimit defaultSettings qNoReservationExhausted) :=
  c1_clamp_amended defaultSettings qNoReservationExhausted (by decide)

/-- C2 counterexample: with the average quota exhausted the no-reservation
output is 20 (emergency tier), so the claimed value `min(X_max, q)` for a
reservation of 80% is `min(20, 80) = 20`; the code instead returns 80. -/
theorem c2_reservation_counterexample :
    calculateCpuLimit defaultSettings qReservationBig = 80 ∧
    min (calculateCpuLimit defaultSettings qNoReservationExhausted) 80 = 20 ∧
    (80 : ℚ) ≠ 20 := by
  refine ⟨by decide, by decide, by decide⟩

/-- C2 (amended): with an active reservation of quota `q`, the solver returns
`min(q, max_limit)` directly — it never exceeds the reserved pin, but the
value is independent of (and can exceed) what the remaining-quota tiers
would allow without the reservation. -/
theorem c2_reservation_amended (st : Settings) (q : QuotaInfo) (rq : ℚ)
    (h : q.reservationQuota = some rq) :
    calculateCpuLimit st q = min rq st.limitsAbsoluteMaxCpu ∧
    calculateCpuLimit st q ≤ rq := by
  constructor
  · simp [calculateCpuLimit, h]
  · simp only [calculateCpuLimit, h]
    exact min_le_left _ _

theorem c2_reservation_amended_witness :
    calculateCpuLimit defaultSettings qReservationBig =
      min 80 defaultSettings.limitsAbsoluteMaxCpu ∧
    calculateCpuLimit defaultSettings qReservationBig ≤ 80 :=
  c2_reservation_amended defaultSettings qReservationBig 80 rfl

/-- C6 counterexample: with the peak quota exhausted
(`peak_quota_remaining = 0 ≤ critical threshold`) but a reservation of 80%
active, the solver returns 80, exceeding the emergency limit of 20 — the
reservation branch returns before the peak constraint is applied. -/
theorem c6_peak_counterexample :
    qReservationPeakGone.peakQuotaRemaining ≤
      defaultSettings.limitsPeakCriticalThreshold ∧
    calculateCpuLimit defaultSettings qReservationPeakGone = 80 ∧
    ¬ calculateCpuLimit defaultSettings qReservationPeakGone ≤
        defaultSettings.schedulerEmergencyCpuLimit := by
  refine ⟨by decide, by decide, by decide⟩

/-- C6 (amended): when no reservation is active and
`peak_quota_remaining < peak_critical_threshold` (strict comparison in the
code), the tier limit is replaced by `min(result, emergency_limit)`, so the
final output is at most `emergency_limit` (provided
`min_limit ≤ emergency_limit`); with an active reservation the peak
constraint is skipped. -/
theorem c6_peak_amended (st : Settings) (q : QuotaInfo)
    (hres : q.reservationQuota = none)
    (hpeak : q.peakQuotaRemaining < st.limitsPeakCriticalThreshold)
    (hmin : st.limitsAbsoluteMinCpu ≤ st.schedulerEmergencyCpuLimit) :
    calculateCpuLimit st q ≤ st.schedulerEmergencyCpuLimit := by
  simp only [calculateCpuLimit, hres, if_pos hpeak]
  exact max_le hmin ((min_le_left _ _).trans (min_le_right _ _))

theorem c6_peak_amended_witness :
    calculateCpuLimit defaultSettings qNoReservationPeakGone ≤
      defaultSettings.schedulerEmergencyCpuLimit :=
  c6_peak_amended defaultSettings qNoReservationPeakGone rfl (by decide) (by decide)

/-! ### SlidingWindow (src/core/sliding_window.py, `SlidingWindow`)

Entries are `(timestamp, cpu_usage)` pairs as in the Python tuple.  The
class has no `evict(now)`: the only eviction is count-based, inside
`add_data_point`, driven by `max_data_points = window_hours * 3600`. -/

structure SWState where
  dataPoints : List (ℚ × ℚ)
  sumUsage : ℚ
deriving Repr

def emptySW : SWState := { dataPoints := [], sumUsage := 0 }

/-- Embedding of `SlidingWindow.add_data_point`: when the buffer already
holds `max_data_points` entries, read `data_points[0]`, subtract its usage
from `sum_usage` and let the bounded deque drop it on append; then append
the new `(timestamp, cpu_usage)` pair and add its usage.  (For an empty
buffer with `max = 0` the Python code would raise `IndexError`; the `getD 0`
branch is unreachable whenever `1 ≤ max`.) -/
def addDataPoint (maxDataPoints : ℕ) (s : SWState) (cpuUsage ts : ℚ) : SWState :=
  let s1 : SWState :=
    if maxDataPoints ≤ s.dataPoints.length then
      { dataPoints := s.dataPoints.tail
        sumUsage := s.sumUsage - ((s.dataPoints.head?.map Prod.snd).getD 0) }
    else s
  { dataPoints := s1.dataPoints ++ [(ts, cpuUsage)]
    sumUsage := s1.sumUsage + cpuUsage }

/-- Run a sequence of `add_data_point` calls, given as `(cpu_usage, ts)`
pairs, from the empty window. -/
def runAdds (maxDataPoints : ℕ) (ops : List (ℚ × ℚ)) : SWState :=
  ops.foldl (fun s op => addDataPoint maxDataPoints s op.1 op.2) emptySW

/-- C4 counterexample: with `window_hours = 1` (`max_data_points = 3600`,
`H_avg = 3600 s`), pushing a sample at `t = 0` and another at `t = 10^6`
leaves the first entry in the buffer even though its age `10^6` far exceeds
`H_avg` — the code has no time-based `evict(now)`; eviction only triggers
once the buffer holds `max_data_points` entries. -/
theorem c4_horizon_counterexample :
    ((0 : ℚ), (50 : ℚ)) ∈ (runAdds 3600 [(50, 0), (50, 1000000)]).dataPoints ∧
    (1000000 : ℚ) - 0 > 3600 := by
  constructor
  · simp [runAdds, addDataPoint, emptySW]
  · norm_num

/-- Invariant step for the entry-count bound. -/
theorem addDataPoint_length_le (maxDataPoints : ℕ) (hmax : 1 ≤ maxDataPoints)
    (s : SWState) (cpuUsage ts : ℚ)
    (h : s.dataPoints.length ≤ maxDataPoints) :
    (addDataPoint maxDataPoints s cpuUsage ts).dataPoints.length ≤ maxDataPoints := by
  unfold addDataPoint
  by_cases hf : maxDataPoints ≤ s.dataPoints.length
  · have hlen : s.dataPoints.length = maxDataPoints := le_antisymm h hf
    have hne : s.dataPoints ≠ [] := by
      intro hnil
      rw [hnil] at hlen
      simp at hlen
      omega
    simp only [if_pos hf, List.length_append, List.length_tail, List.length_cons]
    simp only [List.length_nil]
    omega
  · simp only [if_neg hf, List.length_append]
    simp only [List.length_cons, List.length_nil]
    omega

/-- C4 (amended): the window's only eviction is count-based — after any
sequence of `add_data_point` calls the buffer holds at most
`max_data_points` entries (the oldest being dropped exactly when the buffer
is full), but no time-based bound on entry age holds. -/
theorem c4_horizon_amended (maxDataPoints : ℕ) (hmax : 1 ≤ maxDataPoints)
    (ops : List (ℚ × ℚ)) :
    (runAdds maxDataPoints ops).dataPoints.length ≤ maxDataPoints := by
  have key : ∀ (l : List (ℚ × ℚ)) (s : SWState),
      s.dataPoints.length ≤ maxDataPoints →
      (l.foldl (fun s op => addDataPoint maxDataPoints s op.1 op.2)
        s).dataPoints.length ≤ maxDataPoints := by
    intro l
    induction l with
    | nil => intro s hs; exact hs
    | cons a tl ih =>
      intro s hs
      exact ih _ (addDataPoint_length_le maxDataPoints hmax s a.1 a.2 hs)
  exact key ops emptySW (by simp [emptySW])

theorem c4_horizon_amended_witness :
    (1 : ℕ) ≤ 3600 ∧
    (runAdds 3600 [(50, 0), (50, 1000000)]).dataPoints.length ≤ 3600 :=
  ⟨by decide, c4_horizon_amended 3600 (by decide) [(50, 0), (50, 1000000)]⟩

/-- Invariant step for sum integrity: `add_data_point` keeps `sum_usage`
exactly equal to the sum of the live entries' usages. -/
theorem addDataPoint_sum_exact (maxDataPoints : ℕ) (hmax : 1 ≤ maxDataPoints)
    (s : SWState) (cpuUsage ts : ℚ)
    (_hlen : s.dataPoints.length ≤ maxDataPoints)
    (h : s.sumUsage = (s.dataPoints.map Prod.snd).sum) :
    (addDataPoint maxDataPoints s cpuUsage ts).sumUsage =
      ((addDataPoint maxDataPoints s cpuUsage ts).dataPoints.map Prod.snd).sum := by
  unfold addDataPoint
  by_cases hf : maxDataPoints ≤ s.dataPoints.length
  · obtain ⟨a, tl, htl⟩ : ∃ a tl, s.dataPoints = a :: tl := by
      cases hd : s.dataPoints with
      | nil =>
        rw [hd] at hf
        simp at hf
        omega
      | cons a tl => exact ⟨a, tl, rfl⟩
    simp only [if_pos hf]
    simp only [htl, List.tail_cons, List.head?_cons, Option.map_some',
      Option.getD_some, List.map_append, List.sum_append, List.map_cons,
      List.sum_cons, List.map_nil, List.sum_nil]
    rw [h, htl]
    simp only [List.map_cons, List.sum_cons]
    ring
  · simp only [if_neg hf, List.map_append, List.sum_append, List.map_cons,
      List.sum_cons, List.map_nil, List.sum_nil]
    rw [h]
    ring

/-- After an `add_data_point` call the buffer is non-empty. -/
theorem addDataPoint_ne_nil (maxDataPoints : ℕ) (s : SWState) (cpuUsage ts : ℚ) :
    (addDataPoint maxDataPoints s cpuUsage ts).dataPoints ≠ [] := by
  unfold addDataPoint
  by_cases hf : maxDataPoints ≤ s.dataPoints.length <;> simp [hf]

/-- C8 (confirmed): in the exact-arithmetic model of the Python floats,
`sum_usage` equals the sum of the live entries' `cpu_usage` exactly after
every operation, so for any non-empty operation sequence the deviation
`|sum − Σ entries|` is `0 < 10⁻⁶ · count`. -/
theorem c8_sum_integrity (maxDataPoints : ℕ) (hmax : 1 ≤ maxDataPoints)
    (ops : List (ℚ × ℚ)) (hne : ops ≠ []) :
    (runAdds maxDataPoints ops).sumUsage =
      ((runAdds maxDataPoints ops).dataPoints.map Prod.snd).sum ∧
    |(runAdds maxDataPoints ops).sumUsage -
        ((runAdds maxDataPoints ops).dataPoints.map Prod.snd).sum| <
      (1 / 1000000 : ℚ) * (runAdds maxDataPoints ops).dataPoints.length := by
  have key : ∀ (l : List (ℚ × ℚ)) (s : SWState),
      s.dataPoints.length ≤ maxDataPoints →
      s.sumUsage = (s.dataPoints.map Prod.snd).sum →
      (l.foldl (fun s op => addDataPoint maxDataPoints s op.1 op.2) s).sumUsage =
        ((l.foldl (fun s op => addDataPoint maxDataPoints s op.1 op.2)
          s).dataPoints.map Prod.snd).sum := by
    intro l
    induction l with
    | nil => intro s _ hs; exact hs
    | cons a tl ih =>
      intro s hlen hs
      exact ih _ (addDataPoint_length_le maxDataPoints hmax s a.1 a.2 hlen)
        (addDataPoint_sum_exact maxDataPoints hmax s a.1 a.2 hlen hs)
  have hsum : (runAdds maxDataPoints ops).sumUsage =
      ((runAdds maxDataPoints ops).dataPoints.map Prod.snd).sum :=
    key ops emptySW (by simp [emptySW]) (by simp [emptySW])
  refine ⟨hsum, ?_⟩
  rw [hsum, sub_self, abs_zero]
  have hpos : 0 < (runAdds maxDataPoints ops).dataPoints.length := by
    obtain ⟨a, tl, rfl⟩ : ∃ a tl, ops = a :: tl := by
      cases ops with
      | nil => exact absurd rfl hne
      | cons a tl => exact ⟨a, tl, rfl⟩
    unfold runAdds
    simp only [List.foldl_cons]
    have : ∀ (l : List (ℚ × ℚ)) (s : SWState), s.dataPoints ≠ [] →
        (l.foldl (fun s op => addDataPoint maxDataPoints s op.1 op.2)
          s).dataPoints ≠ [] := by
      intro l
      induction l with
      | nil => intro s hs; exact hs
      | cons b tl2 ih =>
        intro s _
        exact ih _ (addDataPoint_ne_nil maxDataPoints s b.1 b.2)
    have hne2 := this tl _ (addDataPoint_ne_nil maxDataPoints emptySW a.1 a.2)
    exact List.length_pos.mpr hne2
  have hposq : (0 : ℚ) < (runAdds maxDataPoints ops).dataPoints.length := by
    exact_mod_cast hpos
  exact mul_pos (by norm_num) hposq

theorem c8_sum_integrity_witness :
    (runAdds 3600 [(50, 0), (50, 1000000)]).sumUsage =
      ((runAdds 3600 [(50, 0), (50, 1000000)]).dataPoints.map Prod.snd).sum ∧
    |(runAdds 3600 [(50, 0), (50, 1000000)]).sumUsage -
        ((runAdds 3600 [(50, 0), (50, 1000000)]).dataPoints.map Prod.snd).sum| <
      (1 / 1000000 : ℚ) *
        (runAdds 3600 [(50, 0), (50, 1000000)]).dataPoints.length :=
  c8_sum_integrity 3600 (by decide) [(50, 0), (50, 1000000)] (by decide)

/-! ### PeakWindow (src/core/sliding_window.py, `PeakWindow`)

Closed peak periods are `(start_time, duration)` pairs; at most one open
span is tracked in `current_peak_start`.  `get_total_peak_duration` takes
the clock reading the Python code obtains from `datetime.now` as an
explicit `now` argument. -/

structure PeakCfg where
  windowSeconds : ℚ
  peakThreshold : ℚ
deriving Repr

structure PeakState where
  peakPeriods : List (ℚ × ℚ)
  currentPeakStart : Option ℚ
deriving Repr

/-- Embedding of `PeakWindow._cleanup_old_periods`: pop closed periods from
the front while their `start_time` is before `now − window_seconds`.  The
open span is not touched. -/
def cleanupOldPeriods (cfg : PeakCfg) (t : ℚ) (s : PeakState) : PeakState :=
  { s with peakPeriods :=
      s.peakPeriods.dropWhile (fun p => decide (p.1 < t - cfg.windowSeconds)) }

/-- Embedding of `PeakWindow.update`: enter the peak state when
`cpu_usage ≥ peak_threshold` and no span is open; close the open span to
`(start, t − start)` when `cpu_usage < peak_threshold`; then run the
cleanup. -/
def peakUpdate (cfg : PeakCfg) (cpuUsage t : ℚ) (s : PeakState) : PeakState :=
  let s1 : PeakState :=
    if cfg.peakThreshold ≤ cpuUsage then
      match s.currentPeakStart with
      | none => { s with currentPeakStart := some t }
      | some _ => s
    else
      match s.currentPeakStart with
      | some st =>
        { peakPeriods := s.peakPeriods ++ [(st, t - st)], currentPeakStart := none }
      | none => s
  cleanupOldPeriods cfg t s1

/-- Embedding of `PeakWindow.get_total_peak_duration`: the sum of the closed
periods' durations, plus `now − current_peak_start` for an open span. -/
def totalPeakDuration (s : PeakState) (now : ℚ) : ℚ :=
  (s.peakPeriods.map Prod.snd).sum +
    (match s.currentPeakStart with
     | some st => now - st
     | none => 0)

/-- While every sample stays at or above the threshold, the state keeps its
single open span untouched: the span is never closed, and the cleanup only
inspects closed periods (of which there are none). -/
theorem peakUpdate_const_run (cfg : PeakCfg) (cpuUsage t0 : ℚ)
    (h : cfg.peakThreshold ≤ cpuUsage) (ts : List ℚ) :
    ts.foldl (fun s t => peakUpdate cfg cpuUsage t s)
      { peakPeriods := [], currentPeakStart := some t0 } =
    { peakPeriods := [], currentPeakStart := some t0 } := by
  induction ts with
  | nil => rfl
  | cons t tl ih =>
    have hstep : peakUpdate cfg cpuUsage t
        { peakPeriods := [], currentPeakStart := some t0 } =
        { peakPeriods := [], currentPeakStart := some t0 } := by
      simp [peakUpdate, cleanupOldPeriods, h]
    rw [List.foldl_cons, hstep, ih]

/-- C3 (code evaluated at the failing input): with `window_hours = 1`
(`H_peak = 3600 s`, threshold 95) and samples of 100% every 5 s from
`t = 0` to `t = 7200` — constant peak load lasting `7200 s > H_peak` —
`get_total_peak_duration` at `now = 7200` returns `7200`, not `H_peak`
within one tick: the open span's start is never reset to `now − H_peak`,
so it keeps contributing its full accrued duration. -/
theorem c3_peak_saturation_bug :
    totalPeakDuration
      (((List.range 1440).map (fun i => (5 : ℚ) * (i + 1))).foldl
        (fun s t => peakUpdate ⟨3600, 95⟩ 100 t s)
        (peakUpdate ⟨3600, 95⟩ 100 0 { peakPeriods := [], currentPeakStart := none }))
      7200 = 7200 ∧
    ¬ ((7200 : ℚ) ≤ 3600 + 5) := by
  have hfirst : peakUpdate ⟨3600, 95⟩ 100 0
      { peakPeriods := [], currentPeakStart := none } =
      { peakPeriods := [], currentPeakStart := some 0 } := by
    simp [peakUpdate, cleanupOldPeriods, show (95 : ℚ) ≤ 100 by norm_num]
  rw [hfirst, peakUpdate_const_run ⟨3600, 95⟩ 100 0 (by norm_num)]
  constructor
  · simp [totalPeakDuration]
  · norm_num

/-! ### Control-loop hysteresis (src/core/scheduler.py, `CPUScheduler._adjust_cpu_limit`)

State is `(_current_cpu_limit, _last_adjustment_time)`.  Each tick supplies
the solver decision `new_limit`, the wall-clock reading `time`, and whether
`CGroupManager.set_cpu_limit` succeeds (`setOk`). -/

structure AdjustCfg where
  schedulerChangeThreshold : ℚ
  schedulerAdjustmentInterval : ℚ
  schedulerSmoothFactor : ℚ
  cgroupEnabled : Bool
deriving Repr

structure AdjustState where
  currentCpuLimit : ℚ
  lastAdjustmentTime : Option ℚ
deriving Repr

structure AdjustInput where
  newLimit : ℚ
  time : ℚ
  setOk : Bool
deriving Repr

/-- The tail of `_adjust_cpu_limit` once both hysteresis gates have been
passed: compute the smoothed value and, when cgroup control is enabled and
`set_cpu_limit` succeeds, record the write by updating
`_current_cpu_limit` and `_last_adjustment_time`. -/
def adjustApply (cfg : AdjustCfg) (s : AdjustState) (inp : AdjustInput) :
    Bool × AdjustState :=
  if cfg.cgroupEnabled && inp.setOk then
    (true,
      { currentCpuLimit :=
          s.currentCpuLimit * (1 - cfg.schedulerSmoothFactor) +
            inp.newLimit * cfg.schedulerSmoothFactor
        lastAdjustmentTime := some inp.time })
  else (false, s)

/-- Embedding of `CPUScheduler._adjust_cpu_limit`: return without writing
when `|new_limit − current| < change_threshold`, or when a previous
adjustment exists and less than `scheduler_adjustment_interval` seconds
have elapsed since it; otherwise attempt the write.  The returned `Bool`
records whether a `cpu.max` write happened. -/
def adjustCpuLimit (cfg : AdjustCfg) (s : AdjustState) (inp : AdjustInput) :
    Bool × AdjustState :=
  if |inp.newLimit - s.currentCpuLimit| < cfg.schedulerChangeThreshold then (false, s)
  else
    match s.lastAdjustmentTime with
    | some t0 =>
      if inp.time - t0 < cfg.schedulerAdjustmentInterval then (false, s)
      else adjustApply cfg s inp
    | none => adjustApply cfg s inp

/-- The times at which actuator writes occur along a run of the loop. -/
def adjustWrites (cfg : AdjustCfg) (s : AdjustState) :
    List AdjustInput → List ℚ
  | [] => []
  | inp :: rest =>
    let r := adjustCpuLimit cfg s inp
    if r.1 then inp.time :: adjustWrites cfg r.2 rest
    else adjustWrites cfg r.2 rest

/-- A tick that does not write leaves the state unchanged. -/
theorem adjustCpuLimit_nowrite (cfg : AdjustCfg) (s : AdjustState)
    (inp : AdjustInput) (h : (adjustCpuLimit cfg s inp).1 = false) :
    (adjustCpuLimit cfg s inp).2 = s := by
  unfold adjustCpuLimit adjustApply at *
  by_cases h1 : |inp.newLimit - s.currentCpuLimit| < cfg.schedulerChangeThreshold
  · simp [h1]
  · simp only [if_neg h1] at h ⊢
    cases hl : s.lastAdjustmentTime with
    | none =>
      simp only [hl] at h ⊢
      by_cases h2 : cfg.cgroupEnabled && inp.setOk
      · simp [h2] at h
      · simp [h2]
    | some t0 =>
      simp only [hl] at h ⊢
      by_cases h3 : inp.time - t0 < cfg.schedulerAdjustmentInterval
      · simp [h3]
      · simp only [if_neg h3] at h ⊢
        by_cases h2 : cfg.cgroupEnabled && inp.setOk
        · simp [h2] at h
        · simp [h2]

/-- A tick that writes stamps `_last_adjustment_time` with the tick's time. -/
theorem adjustCpuLimit_write_last (cfg : AdjustCfg) (s : AdjustState)
    (inp : AdjustInput) (h : (adjustCpuLimit cfg s inp).1 = true) :
    (adjustCpuLimit cfg s inp).2.lastAdjustmentTime = some inp.time := by
  unfold adjustCpuLimit adjustApply at *
  by_cases h1 : |inp.newLimit - s.currentCpuLimit| < cfg.schedulerChangeThreshold
  · simp [h1] at h
  · simp only [if_neg h1] at h ⊢
    cases hl : s.lastAdjustmentTime with
    | none =>
      simp only [hl] at h ⊢
      by_cases h2 : cfg.cgroupEnabled && inp.setOk
      · simp [h2]
      · simp [h2] at h
    | some t0 =>
      simp only [hl] at h ⊢
      by_cases h3 : inp.time - t0 < cfg.schedulerAdjustmentInterval
      · simp [h3] at h
      · simp only [if_neg h3] at h ⊢
        by_cases h2 : cfg.cgroupEnabled && inp.setOk
        · simp [h2]
        · simp [h2] at h

/-- A tick that writes passed both hysteresis gates. -/
theorem adjustCpuLimit_write_gates (cfg : AdjustCfg) (s : AdjustState)
    (inp : AdjustInput) (h : (adjustCpuLimit cfg s inp).1 = true) :
    cfg.schedulerChangeThreshold ≤ |inp.newLimit - s.currentCpuLimit| ∧
    (∀ t0, s.lastAdjustmentTime = some t0 →
      cfg.schedulerAdjustmentInterval ≤ inp.time - t0) := by
  unfold adjustCpuLimit at h
  by_cases h1 : |inp.newLimit - s.currentCpuLimit| < cfg.schedulerChangeThreshold
  · simp [h1] at h
  · refine ⟨not_lt.mp h1, ?_⟩
    intro t0 hl
    simp only [if_neg h1, hl] at h
    by_cases h3 : inp.time - t0 < cfg.schedulerAdjustmentInterval
    · simp [h3] at h
    · exact not_lt.mp h3

/-- If the last write was at `t0`, the next write in the run is at least
one adjustment interval later. -/
theorem adjustWrites_head_gap (cfg : AdjustCfg) (inputs : List AdjustInput) :
    ∀ (s : AdjustState) (t0 t : ℚ), s.lastAdjustmentTime = some t0 →
      (adjustWrites cfg s inputs).head? = some t →
      cfg.schedulerAdjustmentInterval ≤ t - t0 := by
  induction inputs with
  | nil => intro s t0 t _ hh; simp [adjustWrites] at hh
  | cons inp rest ih =>
    intro s t0 t hl hh
    unfold adjustWrites at hh
    by_cases hw : (adjustCpuLimit cfg s inp).1
    · simp only [hw, if_true, List.head?_cons, Option.some_inj] at hh
      subst hh
      exact ((adjustCpuLimit_write_gates cfg s inp hw).2 t0 hl)
    · simp only [hw] at hh
      simp only [Bool.false_eq_true, if_false] at hh
      have hs := adjustCpuLimit_nowrite cfg s inp (by simpa using hw)
      rw [hs] at hh
      exact ih s t0 t hl hh

/-- C7 (confirmed): a `cpu.max` write happens only when the decision differs
from the current limit by at least `change_threshold` and, if a previous
adjustment exists, at least `scheduler_adjustment_interval` seconds have
elapsed since it; consequently, along any run of the loop, consecutive
write times are never less than one adjustment interval apart. -/
theorem c7_hysteresis :
    (∀ (cfg : AdjustCfg) (s : AdjustState) (inp : AdjustInput),
      (adjustCpuLimit cfg s inp).1 = true →
      cfg.schedulerChangeThreshold ≤ |inp.newLimit - s.currentCpuLimit| ∧
      (∀ t0, s.lastAdjustmentTime = some t0 →
        cfg.schedulerAdjustmentInterval ≤ inp.time - t0)) ∧
    (∀ (cfg : AdjustCfg) (s : AdjustState) (inputs : List AdjustInput),
      (adjustWrites cfg s inputs).Chain'
        (fun t1 t2 => cfg.schedulerAdjustmentInterval ≤ t2 - t1)) := by
  refine ⟨adjustCpuLimit_write_gates, ?_⟩
  intro cfg s inputs
  induction inputs generalizing s with
  | nil => simp [adjustWrites]
  | cons inp rest ih =>
    unfold adjustWrites
    by_cases hw : (adjustCpuLimit cfg s inp).1
    · simp only [hw, if_true]
      rw [List.chain'_cons']
      refine ⟨?_, ih _⟩
      intro t ht
      exact adjustWrites_head_gap cfg rest (adjustCpuLimit cfg s inp).2 inp.time t
        (adjustCpuLimit_write_last cfg s inp hw) (by simpa using ht)
    · simp only [hw]
      simp only [Bool.false_eq_true, if_false]
      have hs := adjustCpuLimit_nowrite cfg s inp (by simpa using hw)
      rw [hs]
      exact ih s

/-- Witness: a concrete tick (decision 30 against current limit 95, at time
0 with no prior adjustment, threshold 2, interval 10) performs a write, and
the theorem's gate conditions hold there. -/
theorem c7_hysteresis_witness :
    ((⟨2, 10, (3 : ℚ) / 10, true⟩ : AdjustCfg).schedulerChangeThreshold ≤
      |(30 : ℚ) - 95| ∧
    (∀ t0, (⟨95, none⟩ : AdjustState).lastAdjustmentTime = some t0 →
      (⟨2, 10, (3 : ℚ) / 10, true⟩ : AdjustCfg).schedulerAdjustmentInterval ≤
        (0 : ℚ) - t0)) :=
  c7_hysteresis.1 ⟨2, 10, (3 : ℚ) / 10, true⟩ ⟨95, none⟩ ⟨30, 0, true⟩
    (by norm_num [adjustCpuLimit, adjustApply])

/-! ### Cgroup actuator quota computation
(src/cpu_limiter.py `CGroupCPULimiter.set_cpu_limit` and
src/utils/cgroup_manager.py `CGroupManager.set_cpu_limit`)

`cpu.max` content is modelled as the `(quota, period)` integer pair of the
written string.  Python's `int()` on the non-negative product is `floor`. -/

/-- Clamp of `CGroupCPULimiter.set_cpu_limit`: `max(0, min(100, cpu_percent))`. -/
def limiterClamp (p : ℚ) : ℚ := max 0 (min 100 p)

/-- Quota computed by `CGroupCPULimiter.set_cpu_limit`:
`int(cpu_percent * period / 100)` with `period = 100000`. -/
def limiterQuota (p : ℚ) : ℤ := Int.floor (limiterClamp p * 100000 / 100)

/-- The `(quota, period)` pair `CGroupCPULimiter.set_cpu_limit` writes to
`cpu.max`. -/
def limiterWrite (p : ℚ) : ℤ × ℤ := (limiterQuota p, 100000)

/-- Embedding of `CGroupCPULimiter.get_current_limit` on a parsed
`(quota, period)` pair: `(quota / period) * 100`, with no division by the
machine's CPU count. -/
def limiterReadPct (qp : ℤ × ℤ) : ℚ := ((qp.1 : ℚ) / (qp.2 : ℚ)) * 100

/-- Quota computed by `CGroupManager.set_cpu_limit`: the input is clamped to
`[limits_absolute_min_cpu, limits_absolute_max_cpu]` (not `[0, 100]`) and
`quota = int(period * (limit_percent / 100))`. -/
def managerQuota (absMin absMax p : ℚ) : ℤ :=
  Int.floor (100000 * (max absMin (min p absMax) / 100))

/-- Modelled from the spec's words, for comparison only: the claimed quota
`⌊cpu_pct · N_cpus · period / 100⌋` with the input clamped to `[0, 100]`. -/
def quotaClaimSpec (nCpus : ℕ) (p : ℚ) : ℤ :=
  Int.floor (limiterClamp p * nCpus * 100000 / 100)

/-- C5 counterexample: a 30% limit writes `quota = 30000`, not the
`30 · 10 · 1000 = 300000` the claim requires on a 10-core host — neither
`set_cpu_limit` multiplies by the CPU count. -/
theorem c5_quota_counterexample :
    limiterWrite 30 = (30000, 100000) ∧
    quotaClaimSpec 10 30 = 300000 ∧
    (30000 : ℤ) ≠ 300000 := by
  refine ⟨?_, ?_, by decide⟩
  · unfold limiterWrite limiterQuota limiterClamp
    norm_num
  · unfold quotaClaimSpec limiterClamp
    norm_num

/-- C5 (amended): `set_cpu_limit(cpu_pct)` writes `cpu.max` as
`"<quota> <period>"` with `period = 100000` µs and
`quota = ⌊cpu_pct_clamped · period / 100⌋` — no CPU-count factor
(`CGroupCPULimiter` clamps the input to `[0, 100]`; `CGroupManager` clamps
to `[abs_min, abs_max]` instead); reading back returns
`quota / period · 100` without dividing by the CPU count, which lies within
`1/1000` below the clamped input. -/
theorem c5_quota_amended (p : ℚ) :
    limiterWrite p = (Int.floor (limiterClamp p * 1000), 100000) ∧
    limiterReadPct (limiterWrite p) = (limiterQuota p : ℚ) / 1000 ∧
    limiterClamp p - 1 / 1000 < limiterReadPct (limiterWrite p) ∧
    limiterReadPct (limiterWrite p) ≤ limiterClamp p := by
  have hq : limiterQuota p = Int.floor (limiterClamp p * 1000) := by
    unfold limiterQuota
    congr 1
    ring
  have hread : limiterReadPct (limiterWrite p) = (limiterQuota p : ℚ) / 1000 := by
    unfold limiterReadPct limiterWrite
    push_cast
    ring
  refine ⟨?_, hread, ?_, ?_⟩
  · unfold limiterWrite
    rw [hq]
  · rw [hread, hq]
    have hlow : limiterClamp p * 1000 - 1 < (Int.floor (limiterClamp p * 1000) : ℚ) :=
      Int.sub_one_lt_floor _
    rw [lt_div_iff₀ (by norm_num : (0 : ℚ) < 1000)]
    linarith
  · rw [hread, hq]
    have hup : (Int.floor (limiterClamp p * 1000) : ℚ) ≤ limiterClamp p * 1000 :=
      Int.floor_le _
    rw [div_le_iff₀ (by norm_num : (0 : ℚ) < 1000)]
    linarith

/-! ### CGroupManager state machine (src/utils/cgroup_manager.py)

The environment the manager probes (effective UID, the `cgroup_enabled`
setting, existence of `/sys/fs/cgroup` and of `cpu.max`) is fixed for the
process lifetime; the mutable state carries `_initialized`, whether the
manager created its directory, the `cpu.max` content it wrote, the log of
writes to `cpu.max`, and `_current_limit`. -/

structure CgWorld where
  euid : ℕ
  cgroupEnabled : Bool
  cgroupRootExists : Bool
  cpuMaxFileExists : Bool
deriving Repr

structure CgState where
  initialized : Bool
  dirCreated : Bool
  cpuMaxContent : Option (ℤ × ℤ)
  cpuMaxWrites : List (ℤ × ℤ)
  currentLimit : Option ℚ
deriving Repr

/-- Embedding of `CGroupManager.initialize`: refuse when cgroup control is
disabled; succeed immediately when already initialized; then check root
privilege (`os.geteuid() != 0`), the cgroup filesystem, create the
directory, and require `cpu.max` to exist. -/
def cgInit (w : CgWorld) (s : CgState) : Bool × CgState :=
  if ¬ w.cgroupEnabled then (false, s)
  else if s.initialized then (true, s)
  else if w.euid ≠ 0 then (false, s)
  else if ¬ w.cgroupRootExists then (false, s)
  else
    let s1 : CgState := { s with dirCreated := true }
    if ¬ w.cpuMaxFileExists then (false, s1)
    else (true, { s1 with initialized := true })

/-- Embedding of `CGroupManager.set_cpu_limit`: when not initialized, retry
`initialize` and bail out on failure before touching the filesystem;
otherwise clamp the input to `[abs_min, abs_max]`, compute
`quota = int(period * (limit / 100))` and write `"quota period"` to
`cpu.max`.  (The write itself is modelled as succeeding: on the reachable
path the manager is initialized, hence privileged.) -/
def cgSetCpuLimit (absMin absMax : ℚ) (w : CgWorld) (s : CgState) (p : ℚ) :
    Bool × CgState :=
  let (ok, s1) := if ¬ s.initialized then cgInit w s else (true, s)
  if ¬ ok then (false, s1)
  else
    let clamped := max absMin (min p absMax)
    let quota := managerQuota absMin absMax p
    (true,
      { s1 with
          cpuMaxContent := some (quota, 100000)
          cpuMaxWrites := s1.cpuMaxWrites ++ [(quota, 100000)]
          currentLimit := some clamped })

/-- Embedding of `CGroupManager.get_current_limit`: `None` when not
initialized; otherwise parse the `cpu.max` content as
`(quota / period) * 100` (an untouched kernel file reads `"max"`, i.e.
100%). -/
def cgGetCurrentLimit (s : CgState) : Option ℚ :=
  if ¬ s.initialized then none
  else
    match s.cpuMaxContent with
    | some (q, per) => some (((q : ℚ) / (per : ℚ)) * 100)
    | none => some 100

/-- Fold a sequence of `set_cpu_limit` calls. -/
def cgRunSetCalls (absMin absMax : ℚ) (w : CgWorld) (s : CgState)
    (ps : List ℚ) : CgState :=
  ps.foldl (fun s p => (cgSetCpuLimit absMin absMax w s p).2) s

/-- Without root privilege, `initialize` fails and changes nothing. -/
theorem cgInit_no_root (w : CgWorld) (s : CgState)
    (heuid : w.euid ≠ 0) (hinit : s.initialized = false) :
    cgInit w s = (false, s) := by
  unfold cgInit
  by_cases he : w.cgroupEnabled
  · simp [he, hinit, heuid]
  · simp [he]

/-- C9 (confirmed): when initialization fails for lack of privilege
(effective UID ≠ 0), every subsequent `set_cpu_limit` call re-attempts
`initialize`, fails again, and returns before any filesystem write: after
any sequence of calls the state — including the `cpu.max` content and the
write log — is unchanged, and `get_current_limit()` returns `None`. -/
theorem c9_observe_only (absMin absMax : ℚ) (w : CgWorld) (s : CgState)
    (ps : List ℚ) (heuid : w.euid ≠ 0) (hinit : s.initialized = false) :
    cgRunSetCalls absMin absMax w s ps = s ∧
    cgGetCurrentLimit (cgRunSetCalls absMin absMax w s ps) = none := by
  have hstep : ∀ p, cgSetCpuLimit absMin absMax w s p = (false, s) := by
    intro p
    unfold cgSetCpuLimit
    simp [hinit, cgInit_no_root w s heuid hinit]
  have hrun : cgRunSetCalls absMin absMax w s ps = s := by
    unfold cgRunSetCalls
    induction ps with
    | nil => rfl
    | cons p tl ih =>
      rw [List.foldl_cons, hstep p, ih]
  refine ⟨hrun, ?_⟩
  rw [hrun]
  unfold cgGetCurrentLimit
  simp [hinit]

theorem c9_observe_only_witness :
    cgRunSetCalls 5 95 ⟨1000, true, true, true⟩ ⟨false, false, none, [], none⟩
        [30, 50, 80] = ⟨false, false, none, [], none⟩ ∧
    cgGetCurrentLimit (cgRunSetCalls 5 95 ⟨1000, true, true, true⟩
        ⟨false, false, none, [], none⟩ [30, 50, 80]) = none :=
  c9_observe_only 5 95 ⟨1000, true, true, true⟩ ⟨false, false, none, [], none⟩
    [30, 50, 80] (by decide) rfl

/-! ### QuotaManager.create_reservation (src/core/quota_manager.py)

The reservation store is the list of rows of `quota_reservations`;
timestamps are rationals in seconds (the SQL compares ISO-8601 strings,
which order like the instants they denote). -/

structure ResRow where
  startTime : ℚ
  endTime : ℚ
  cpuQuota : ℚ
  priority : ℤ
  enabled : Bool
deriving Repr

structure ResCfg where
  reservationMinDuration : ℚ
  reservationMaxDuration : ℚ
deriving Repr

/-- Embedding of `QuotaManager._check_conflict` (without `exclude_id`): an
enabled row conflicts when `(start ≤ new_start ∧ end ≥ new_start)` or
`(start ≤ new_end ∧ end ≥ new_end)` or `(start ≥ new_start ∧ end ≤
new_end)`. -/
def checkConflict (store : List ResRow) (ns ne : ℚ) : Bool :=
  store.any (fun r =>
    r.enabled &&
      ((decide (r.startTime ≤ ns) && decide (ns ≤ r.endTime)) ||
       (decide (r.startTime ≤ ne) && decide (ne ≤ r.endTime)) ||
       (decide (ns ≤ r.startTime) && decide (r.endTime ≤ ne))))

/-- Embedding of `QuotaManager.create_reservation`: reject (returning `None`
and leaving the store unchanged) when `start_time >= end_time`, when the
duration in minutes is below `reservation_min_duration`, when the duration
in hours exceeds `reservation_max_duration`, when `cpu_quota` is outside
`[0, 100]`, or when the window conflicts with an existing enabled
reservation; otherwise insert the row (enabled) and return its id. -/
def createReservation (cfg : ResCfg) (store : List ResRow)
    (ns ne cpuQuota : ℚ) (priority : ℤ) : Option Unit × List ResRow :=
  if ne ≤ ns then (none, store)
  else if (ne - ns) / 60 < cfg.reservationMinDuration then (none, store)
  else if cfg.reservationMaxDuration < (ne - ns) / 60 / 60 then (none, store)
  else if cpuQuota < 0 ∨ 100 < cpuQuota then (none, store)
  else if checkConflict store ns ne then (none, store)
  else (some (), store ++ [⟨ns, ne, cpuQuota, priority, true⟩])

/-- C10 (confirmed): every argument combination that fails validation —
inverted times, duration below the minimum or above the maximum, quota
outside `[0, 100]`, or an overlap with an existing enabled reservation —
makes `create_reservation` return `None` and leave the store unchanged. -/
theorem c10_create_reservation_validation (cfg : ResCfg) (store : List ResRow)
    (ns ne cpuQuota : ℚ) (priority : ℤ)
    (h : ne ≤ ns ∨ (ne - ns) / 60 < cfg.reservationMinDuration ∨
      cfg.reservationMaxDuration < (ne - ns) / 60 / 60 ∨
      cpuQuota < 0 ∨ 100 < cpuQuota ∨ checkConflict store ns ne = true) :
    createReservation cfg store ns ne cpuQuota priority = (none, store) := by
  unfold createReservation
  by_cases h1 : ne ≤ ns
  · simp [h1]
  · simp only [if_neg h1]
    by_cases h2 : (ne - ns) / 60 < cfg.reservationMinDuration
    · simp [h2]
    · simp only [if_neg h2]
      by_cases h3 : cfg.reservationMaxDuration < (ne - ns) / 60 / 60
      · simp [h3]
      · simp only [if_neg h3]
        by_cases h4 : cpuQuota < 0 ∨ 100 < cpuQuota
        · simp [h4]
        · simp only [if_neg h4]
          have h5 : checkConflict store ns ne = true := by
            rcases h with h | h | h | h | h | h
            · exact absurd h h1
            · exact absurd h h2
            · exact absurd h h3
            · exact absurd (Or.inl h) h4
            · exact absurd (Or.inr h) h4
            · exact h
          simp [h5]

theorem c10_create_reservation_validation_witness :
    createReservation ⟨5, 24⟩ [] 100 100 50 5 = (none, []) :=
  c10_create_reservation_validation ⟨5, 24⟩ [] 100 100 50 5 (Or.inl (by norm_num))

end ZaJi
